import Mathlib

/-!
Shallow embedding of the js-chess-engine WebAssembly core
(`src/wasm/src/lib.rs`) and proofs about its specification.

Modelling conventions:
- Rust `u64` bitboards are `Nat` values; where the source can overflow,
  the reduction `% 2 ^ 64` is explicit (release-mode wrapping semantics).
  Shift amounts are masked `% 64` as wasm/release Rust does.
- Rust `u8` arithmetic in `parse_en_passant` wraps, modelled `% 256`.
- `f32` scores: every quantity the evaluator computes is an integer of
  magnitude at most 576, exactly representable in `f32`, and `f32`
  addition of such integers is exact; scores are therefore modelled as
  `Int` without loss.
- Strings are modelled as `List Char`; the source measures byte length
  but indexes chars, which agree on the ASCII inputs considered here.
- The wall-clock reading (`js_sys::Date::now`) is an environment input,
  passed to `analyze_position` as an explicit `elapsed_ms` argument.
-/

/-- Modulus for Rust `u64` arithmetic. -/
def U64MOD : Nat := 2 ^ 64

inductive PieceType
  | pawn
  | knight
  | bishop
  | rook
  | queen
  | king
deriving DecidableEq

inductive Color
  | white
  | black
deriving DecidableEq

structure Piece where
  piece_type : PieceType
  color : Color
deriving DecidableEq

/-- Move representation (`struct Move`); `from`/`to` are renamed
`fromSq`/`toSq` because `from` is a Lean keyword. -/
structure Move where
  fromSq : Nat
  toSq : Nat
  piece : Piece
  captured : Option Piece
  promotion : Option PieceType
  is_castling : Bool
  is_en_passant : Bool
deriving DecidableEq

structure AnalysisResult where
  evaluation : Int
  best_move : Option Move
  principal_variation : List Move
  nodes_searched : Nat
  search_depth : Nat
  time_ms : Nat
deriving DecidableEq

/-- Engine state (`struct ChessEngine`): twelve bitboards, game state,
position cache (modelled as an association list; the modelled code never
writes it) and the node counter. -/
structure ChessEngine where
  white_pawns : Nat
  white_knights : Nat
  white_bishops : Nat
  white_rooks : Nat
  white_queens : Nat
  white_king : Nat
  black_pawns : Nat
  black_knights : Nat
  black_bishops : Nat
  black_rooks : Nat
  black_queens : Nat
  black_king : Nat
  side_to_move : Color
  castling_rights : Nat
  en_passant_square : Option Nat
  halfmove_clock : Nat
  fullmove_number : Nat
  position_cache : List (Nat × Int)
  nodes_searched : Nat
deriving DecidableEq

/-- `ChessEngine::new`: the standard starting position. -/
def ChessEngine.new : ChessEngine where
  white_pawns := 0x000000000000FF00
  white_knights := 0x0000000000000042
  white_bishops := 0x0000000000000024
  white_rooks := 0x0000000000000081
  white_queens := 0x0000000000000008
  white_king := 0x0000000000000010
  black_pawns := 0x00FF000000000000
  black_knights := 0x4200000000000000
  black_bishops := 0x2400000000000000
  black_rooks := 0x8100000000000000
  black_queens := 0x0800000000000000
  black_king := 0x1000000000000000
  side_to_move := Color.white
  castling_rights := 0b1111
  en_passant_square := none
  halfmove_clock := 0
  fullmove_number := 1
  position_cache := []
  nodes_searched := 0

/-- Fuelled binary popcount; 64 units of fuel fully consume any `u64`. -/
def popcountAux : Nat → Nat → Nat
  | 0, _ => 0
  | fuel + 1, n => if n = 0 then 0 else n % 2 + popcountAux fuel (n / 2)

/-- `u64::count_ones` on a bitboard. -/
def count_ones (b : Nat) : Nat := popcountAux 64 (b % U64MOD)

/-- `ChessEngine::evaluate_position`: sequential material accumulation,
then sign flip for the black mover, exactly as the source writes it. -/
def evaluate_position (e : ChessEngine) : Int :=
  let score : Int := 0
  let score := score + (count_ones e.white_pawns : Int) * 1
  let score := score + (count_ones e.white_knights : Int) * 3
  let score := score + (count_ones e.white_bishops : Int) * 3
  let score := score + (count_ones e.white_rooks : Int) * 5
  let score := score + (count_ones e.white_queens : Int) * 9
  let score := score - (count_ones e.black_pawns : Int) * 1
  let score := score - (count_ones e.black_knights : Int) * 3
  let score := score - (count_ones e.black_bishops : Int) * 3
  let score := score - (count_ones e.black_rooks : Int) * 5
  let score := score - (count_ones e.black_queens : Int) * 9
  match e.side_to_move with
  | Color.white => score
  | Color.black => -score

example : count_ones 0x000000000000FF00 = 8 := by decide
example : evaluate_position ChessEngine.new = 0 := by decide

/-- FEN error taxonomy: one constructor per distinct error message the
source returns from `load_fen` and its helpers. The two board messages
("Invalid board format", "Invalid piece character") are the spec's single
`FenBoardError` kind. -/
inductive FenError
  | formatError
  | boardError
  | sideError
  | castlingError
  | enPassantError
deriving DecidableEq

/-- Splitter core shared by `str::split` and `split_whitespace`. -/
def splitAux (p : Char → Bool) : List Char → List Char → List (List Char)
  | [], acc => [acc.reverse]
  | c :: rest, acc =>
    if p c then acc.reverse :: splitAux p rest []
    else splitAux p rest (c :: acc)

/-- Rust `str::split` keeping empty pieces. -/
def splitChars (p : Char → Bool) (cs : List Char) : List (List Char) :=
  splitAux p cs []

/-- Rust `str::split_whitespace`: split on whitespace, drop empty pieces
(ASCII whitespace; the inputs considered are ASCII). -/
def split_whitespace (cs : List Char) : List (List Char) :=
  (splitChars (fun c => c = ' ' || c = '\t' || c = '\n' || c = '\r') cs).filter
    (fun t => !t.isEmpty)

/-- `ChessEngine::clear_position`: zero all twelve bitboards. -/
def clear_position (e : ChessEngine) : ChessEngine :=
  { e with
    white_pawns := 0, white_knights := 0, white_bishops := 0
    white_rooks := 0, white_queens := 0, white_king := 0
    black_pawns := 0, black_knights := 0, black_bishops := 0
    black_rooks := 0, black_queens := 0, black_king := 0 }

/-- The `match ch` arms of `parse_board_position`: place a piece bit, or
`none` for the `_ => Err("Invalid piece character")` arm. -/
def applyPieceChar (e : ChessEngine) (bit : Nat) (c : Char) : Option ChessEngine :=
  if c = 'P' then some { e with white_pawns := e.white_pawns ||| bit }
  else if c = 'N' then some { e with white_knights := e.white_knights ||| bit }
  else if c = 'B' then some { e with white_bishops := e.white_bishops ||| bit }
  else if c = 'R' then some { e with white_rooks := e.white_rooks ||| bit }
  else if c = 'Q' then some { e with white_queens := e.white_queens ||| bit }
  else if c = 'K' then some { e with white_king := e.white_king ||| bit }
  else if c = 'p' then some { e with black_pawns := e.black_pawns ||| bit }
  else if c = 'n' then some { e with black_knights := e.black_knights ||| bit }
  else if c = 'b' then some { e with black_bishops := e.black_bishops ||| bit }
  else if c = 'r' then some { e with black_rooks := e.black_rooks ||| bit }
  else if c = 'q' then some { e with black_queens := e.black_queens ||| bit }
  else if c = 'k' then some { e with black_king := e.black_king ||| bit }
  else none

/-- Recognized piece letters, mirroring the branch order of
`applyPieceChar`. -/
def isPieceChar (c : Char) : Bool :=
  if c = 'P' then true
  else if c = 'N' then true
  else if c = 'B' then true
  else if c = 'R' then true
  else if c = 'Q' then true
  else if c = 'K' then true
  else if c = 'p' then true
  else if c = 'n' then true
  else if c = 'b' then true
  else if c = 'r' then true
  else if c = 'q' then true
  else if c = 'k' then true
  else false

/-- Inner loop of `parse_board_position` over one rank's characters.
Digits advance `file_idx`; piece letters set `bit = 1u64 << square`
(shift amount masked `% 64`, release-mode wasm semantics); any other
character returns the board error, keeping the mutations made so far. -/
def parseRankAux (rank_idx : Nat) : ChessEngine → Nat → List Char → ChessEngine × Option FenError
  | e, _, [] => (e, none)
  | e, file_idx, c :: rest =>
    if c.isDigit then parseRankAux rank_idx e (file_idx + (c.toNat - '0'.toNat)) rest
    else
      let square := (7 - rank_idx) * 8 + file_idx
      let bit := 2 ^ (square % 64)
      match applyPieceChar e bit c with
      | some e2 => parseRankAux rank_idx e2 (file_idx + 1) rest
      | none => (e, some FenError.boardError)

/-- Outer loop of `parse_board_position` over the enumerated ranks. -/
def parseRanksAux : ChessEngine → Nat → List (List Char) → ChessEngine × Option FenError
  | e, _, [] => (e, none)
  | e, rank_idx, r :: rest =>
    match parseRankAux rank_idx e 0 r with
    | (e2, none) => parseRanksAux e2 (rank_idx + 1) rest
    | (e2, some err) => (e2, some err)

/-- `ChessEngine::parse_board_position`. -/
def parse_board_position (e : ChessEngine) (board : List Char) : ChessEngine × Option FenError :=
  let ranks := splitChars (fun c => c = '/') board
  if ranks.length ≠ 8 then (e, some FenError.boardError)
  else parseRanksAux e 0 ranks

/-- Castling-rights bit for one character of the castling field. -/
def castlingFlag (c : Char) : Option Nat :=
  if c = 'K' then some 0b0001
  else if c = 'Q' then some 0b0010
  else if c = 'k' then some 0b0100
  else if c = 'q' then some 0b1000
  else none

def parseCastlingAux : ChessEngine → List Char → ChessEngine × Option FenError
  | e, [] => (e, none)
  | e, c :: rest =>
    match castlingFlag c with
    | some f => parseCastlingAux { e with castling_rights := e.castling_rights ||| f } rest
    | none => (e, some FenError.castlingError)

/-- `ChessEngine::parse_castling_rights`: rights are zeroed first, then
rebuilt flag by flag. -/
def parse_castling_rights (e : ChessEngine) (s : List Char) : ChessEngine × Option FenError :=
  let e0 := { e with castling_rights := 0 }
  if s = ['-'] then (e0, none) else parseCastlingAux e0 s

/-- `ChessEngine::parse_en_passant`: "-" clears the target; any
two-character field is accepted, with the square computed by wrapping
`u8` arithmetic (`ch as u8 - b'a'`, `rank * 8 + file`); anything else is
the en-passant error. No range check is performed. -/
def parse_en_passant (e : ChessEngine) (s : List Char) : ChessEngine × Option FenError :=
  if s = ['-'] then ({ e with en_passant_square := none }, none)
  else
    match s with
    | [c0, c1] =>
      let file := (c0.toNat % 256 + 256 - 'a'.toNat) % 256
      let rank := (c1.toNat % 256 + 256 - '1'.toNat) % 256
      ({ e with en_passant_square := some ((rank * 8 + file) % 256) }, none)
    | _ => (e, some FenError.enPassantError)

/-- Digit-run accumulator for `str::parse::<u16>`. -/
def parseDigitsAux : Nat → List Char → Option Nat
  | acc, [] => some acc
  | acc, c :: rest =>
    if c.isDigit then parseDigitsAux (acc * 10 + (c.toNat - '0'.toNat)) rest
    else none

/-- Rust `str::parse::<u16>`: optional leading '+', at least one digit,
value at most 65535; `none` models `Err`. -/
def parseU16 (s : List Char) : Option Nat :=
  let body := match s with
    | '+' :: rest => rest
    | _ => s
  match body with
  | [] => none
  | _ =>
    match parseDigitsAux 0 body with
    | some v => if v ≤ 65535 then some v else none
    | none => none

/-- Clock fields of `load_fen`: `parts[4].parse().unwrap_or(0)` and
`parts[5].parse().unwrap_or(1)`, applied only when the field exists. -/
def loadClocks (e : ChessEngine) (parts : List (List Char)) : ChessEngine :=
  let e5 := if parts.length ≥ 5 then { e with halfmove_clock := (parseU16 (parts.getD 4 [])).getD 0 } else e
  if parts.length ≥ 6 then { e5 with fullmove_number := (parseU16 (parts.getD 5 [])).getD 1 } else e5

/-- `ChessEngine::load_fen`. Note the source clears all bitboards
*before* any validation, and each parsing stage mutates `self` in place;
the returned engine is therefore the (possibly partially updated) state
even when an error is returned. -/
def load_fen (e : ChessEngine) (fen : List Char) : ChessEngine × Option FenError :=
  let e1 := clear_position e
  let parts := split_whitespace fen
  if parts.length < 4 then (e1, some FenError.formatError)
  else
    match parse_board_position e1 (parts.getD 0 []) with
    | (e2, some err) => (e2, some err)
    | (e2, none) =>
      let sideStr := parts.getD 1 []
      if sideStr ≠ ['w'] ∧ sideStr ≠ ['b'] then (e2, some FenError.sideError)
      else
        let e3 := { e2 with side_to_move := if sideStr = ['w'] then Color.white else Color.black }
        match parse_castling_rights e3 (parts.getD 2 []) with
        | (e4, some err) => (e4, some err)
        | (e4, none) =>
          match parse_en_passant e4 (parts.getD 3 []) with
          | (e5, some err) => (e5, some err)
          | (e5, none) => (loadClocks e5 parts, none)

example :
    (load_fen ChessEngine.new "rnbqkbnr/pppppppp/8/8/8/8/PPPPPPPP/RNBQKBNR w KQkq - 0 1".toList).2 = none := by
  decide

example :
    (load_fen ChessEngine.new "rnbqkbnr/pppppppp/8/8/8/8/PPPPPPPP/RNBQKBNR w KQkq - 0 1".toList).1 = ChessEngine.new := by
  decide

/-- `ChessEngine::generate_legal_moves`: the source's placeholder returns
an empty vector for every state. -/
def generate_legal_moves (_ : ChessEngine) : List Move := []

/-- `ChessEngine::generate_moves` (public): bumps `nodes_searched`
(`u64` wrapping in release mode), then calls `generate_legal_moves`.
Returns the updated engine and the serialized move list. -/
def generate_moves (e : ChessEngine) : ChessEngine × List Move :=
  let e1 := { e with nodes_searched := (e.nodes_searched + 1) % U64MOD }
  (e1, generate_legal_moves e1)

/-- The two `f32` constants `analyze_position` passes for alpha/beta;
`minimax_search` never reads them, so the symbols suffice. -/
inductive FloatArg
  | negInfinity
  | infinity
deriving DecidableEq

/-- `ChessEngine::minimax_search`: at depth 0 return the static
evaluation; otherwise count one node and return the static evaluation
(the source's placeholder — alpha, beta and maximizing are unused). -/
def minimax_search (e : ChessEngine) (depth : Nat) (_alpha _beta : FloatArg)
    (_maximizing : Bool) : ChessEngine × Int :=
  if depth = 0 then (e, evaluate_position e)
  else
    let e1 := { e with nodes_searched := (e.nodes_searched + 1) % U64MOD }
    (e1, evaluate_position e1)

/-- `ChessEngine::analyze_position`: reset the node counter, run
`minimax_search(depth, -inf, +inf, true)`, and package the result.
`elapsed_ms` stands for the `js_sys::Date::now` difference, an
environment input the computation never reads. -/
def analyze_position (e : ChessEngine) (depth : Nat) (_time_limit_ms : Nat)
    (elapsed_ms : Nat) : ChessEngine × AnalysisResult :=
  let e0 := { e with nodes_searched := 0 }
  let r := minimax_search e0 depth FloatArg.negInfinity FloatArg.infinity true
  (r.1,
    { evaluation := r.2
      best_move := none
      principal_variation := []
      nodes_searched := r.1.nodes_searched
      search_depth := depth
      time_ms := elapsed_ms })

/-- `ChessEngine::position_to_fen`: the source's placeholder ignores the
state and returns the initial-position FEN. -/
def position_to_fen (_ : ChessEngine) : List Char :=
  "rnbqkbnr/pppppppp/8/8/8/8/PPPPPPPP/RNBQKBNR w KQkq - 0 1".toList

/-- `ChessEngine::get_fen`. -/
def get_fen (e : ChessEngine) : List Char := position_to_fen e

/-- `ChessEngine::get_stats`: the JSON object's three fields
(`nodes_searched`, `cache_size`, `side_to_move`). -/
def get_stats (e : ChessEngine) : Nat × Nat × Color :=
  (e.nodes_searched, e.position_cache.length, e.side_to_move)

/-- Spec-side definition of the evaluator (from the spec's words, for the
refinement claim C4): white material total minus black material total
with weights 1/3/3/5/9 and the king excluded, negated when the mover is
black. -/
def material_spec (e : ChessEngine) : Int :=
  let whiteTotal : Int :=
    (count_ones e.white_pawns : Int) * 1 + (count_ones e.white_knights : Int) * 3 +
    (count_ones e.white_bishops : Int) * 3 + (count_ones e.white_rooks : Int) * 5 +
    (count_ones e.white_queens : Int) * 9
  let blackTotal : Int :=
    (count_ones e.black_pawns : Int) * 1 + (count_ones e.black_knights : Int) * 3 +
    (count_ones e.black_bishops : Int) * 3 + (count_ones e.black_rooks : Int) * 5 +
    (count_ones e.black_queens : Int) * 9
  if e.side_to_move = Color.black then -(whiteTotal - blackTotal)
  else whiteTotal - blackTotal

/-- Helper: the node count `analyze_position` reports depends only on
whether the depth is zero. -/
lemma analyze_nodes_searched (e : ChessEngine) (d t el : Nat) :
    (analyze_position e d t el).2.nodes_searched = if d = 0 then 0 else 1 := by
  by_cases hd : d = 0 <;>
    simp [analyze_position, minimax_search, hd, U64MOD]

/-- C4: `evaluate_position` computes exactly the spec's material count —
pawn 1, knight 3, bishop 3, rook 5, queen 9, king excluded, white total
minus black total, negated for a black mover; as a Lean function of the
`ChessEngine` state it is pure and deterministic. -/
theorem c4_evaluate_position_is_material_from_mover_perspective :
    ∀ e : ChessEngine, evaluate_position e = material_spec e := by
  intro e
  unfold evaluate_position material_spec
  cases h : e.side_to_move <;> simp [h] <;> ring

/-- C8: the placeholder `generate_legal_moves` returns the empty list on
every engine state. -/
theorem c8_generate_legal_moves_always_empty :
    ∀ e : ChessEngine, generate_legal_moves e = [] := by
  intro e
  rfl

/-- C2 (code evaluated at the failing input): on the initial position the
code's `generate_legal_moves` returns 0 moves, not the 20 the spec
requires. -/
theorem c2_initial_position_yields_zero_moves :
    (generate_legal_moves ChessEngine.new).length = 0 ∧
    (generate_legal_moves ChessEngine.new).length ≠ 20 := by
  decide

/-- C9: `analyze_position` always reports the static evaluation of the
current state, no best move, an empty principal variation, and a node
count of 0 at depth 0 and 1 at any positive depth — independent of the
depth and time-limit arguments. -/
theorem c9_analyze_position_result_shape :
    ∀ (e : ChessEngine) (d t el : Nat),
    (analyze_position e d t el).2.evaluation = evaluate_position e ∧
    (analyze_position e d t el).2.best_move = none ∧
    (analyze_position e d t el).2.principal_variation = [] ∧
    (analyze_position e d t el).2.nodes_searched = (if d = 0 then 0 else 1) := by
  intro e d t el
  refine ⟨?_, rfl, rfl, analyze_nodes_searched e d t el⟩
  by_cases hd : d = 0 <;>
    simp [analyze_position, minimax_search, hd, evaluate_position]

/-- C7: for a fixed depth, the `nodes_searched` reported by
`analyze_position` is monotonically non-decreasing in the time limit
(the stub ignores the time limit, so the count is in fact constant). -/
theorem c7_nodes_searched_monotone_in_time_limit :
    ∀ (e : ChessEngine) (d t1 t2 el1 el2 : Nat), t1 ≤ t2 →
    (analyze_position e d t1 el1).2.nodes_searched ≤
      (analyze_position e d t2 el2).2.nodes_searched := by
  intro e d t1 t2 el1 el2 h
  rw [analyze_nodes_searched, analyze_nodes_searched]

/-- Witness for C7 at a concrete state, depth and time limits. -/
theorem c7_nodes_searched_monotone_in_time_limit_witness :
    5 ≤ 9 ∧
    (analyze_position ChessEngine.new 3 5 0).2.nodes_searched ≤
      (analyze_position ChessEngine.new 3 9 0).2.nodes_searched :=
  ⟨by decide, c7_nodes_searched_monotone_in_time_limit ChessEngine.new 3 5 9 0 0 (by decide)⟩

/-- C10: `generate_moves` is not read-only — below the `u64` wrap it
increments `nodes_searched` by exactly one and changes nothing else
(the move list itself is empty), so the node count `get_stats` reports
changes across the call. -/
theorem c10_generate_moves_frame :
    ∀ e : ChessEngine, e.nodes_searched + 1 < U64MOD →
    (generate_moves e).1 = { e with nodes_searched := e.nodes_searched + 1 } ∧
    (generate_moves e).2 = [] ∧
    (get_stats (generate_moves e).1).1 ≠ (get_stats e).1 := by
  intro e h
  have hm : (e.nodes_searched + 1) % U64MOD = e.nodes_searched + 1 :=
    Nat.mod_eq_of_lt h
  refine ⟨?_, rfl, ?_⟩
  · simp only [generate_moves]
    rw [hm]
  · simp only [get_stats, generate_moves]
    rw [hm]
    omega

/-- Witness for C10 at the initial engine state. -/
theorem c10_generate_moves_frame_witness :
    ChessEngine.new.nodes_searched + 1 < U64MOD ∧
    ((generate_moves ChessEngine.new).1 =
        { ChessEngine.new with nodes_searched := ChessEngine.new.nodes_searched + 1 } ∧
      (generate_moves ChessEngine.new).2 = [] ∧
      (get_stats (generate_moves ChessEngine.new).1).1 ≠ (get_stats ChessEngine.new).1) :=
  ⟨by decide, c10_generate_moves_frame ChessEngine.new (by decide)⟩

/-- C1 counterexample: `load_fen` on the input "x" fails, yet the engine
state is not the state before the call — the bitboards were cleared
first, so decoding is not all-or-nothing. -/
theorem c1_failed_decode_mutates_state :
    ((load_fen ChessEngine.new "x".toList).2).isSome = true ∧
    (load_fen ChessEngine.new "x".toList).1 ≠ ChessEngine.new := by
  decide

/-- C1 amended: on an input with fewer than four whitespace-separated
fields, `load_fen` fails with the format error and leaves the engine in
the *cleared* state — all twelve bitboards zeroed, the remaining fields
as before the call — rather than in the state that held before. -/
theorem c1_format_error_leaves_cleared_state :
    ∀ (e : ChessEngine) (fen : List Char), (split_whitespace fen).length < 4 →
    load_fen e fen = (clear_position e, some FenError.formatError) := by
  intro e fen h
  simp [load_fen, h]

/-- Witness for the amended C1 on a concrete engine and input. -/
theorem c1_format_error_leaves_cleared_state_witness :
    (split_whitespace "x".toList).length < 4 ∧
    load_fen ChessEngine.new "x".toList =
      (clear_position ChessEngine.new, some FenError.formatError) :=
  ⟨by decide, c1_format_error_leaves_cleared_state ChessEngine.new "x".toList (by decide)⟩

/-- C3 (code evaluated at the failing input): the empty-board FEN decodes
successfully, but re-decoding its encoding does not reproduce the decoded
state — `position_to_fen` ignores the state and always emits the
initial-position FEN. -/
theorem c3_roundtrip_fails_on_empty_board :
    (load_fen ChessEngine.new "8/8/8/8/8/8/8/8 w - - 0 1".toList).2 = none ∧
    (load_fen ChessEngine.new
        (position_to_fen (load_fen ChessEngine.new "8/8/8/8/8/8/8/8 w - - 0 1".toList).1)).2 =
      none ∧
    (load_fen ChessEngine.new
        (position_to_fen (load_fen ChessEngine.new "8/8/8/8/8/8/8/8 w - - 0 1".toList).1)).1 ≠
      (load_fen ChessEngine.new "8/8/8/8/8/8/8/8 w - - 0 1".toList).1 := by
  decide

/-- C6 counterexample: the en-passant field "zz" is accepted by decode
(no error), storing square 97, which is not even on the board — the
claimed a–h/1–8 validation does not exist. -/
theorem c6_out_of_range_square_accepted :
    (load_fen ChessEngine.new "8/8/8/8/8/8/8/8 w - zz 0 1".toList).2 = none ∧
    (load_fen ChessEngine.new "8/8/8/8/8/8/8/8 w - zz 0 1".toList).1.en_passant_square =
      some 97 := by
  decide

/-- C6 amended: the en-passant field is accepted exactly when it is "-"
or any two-character string; the file and rank characters are not
range-checked (the square is computed with wrapping byte arithmetic). -/
theorem c6_en_passant_accept_iff_dash_or_two_chars :
    ∀ (e : ChessEngine) (s : List Char),
    (parse_en_passant e s).2 = none ↔ (s = ['-'] ∨ s.length = 2) := by
  intro e s
  match s with
  | [] => simp [parse_en_passant]
  | [a] =>
    by_cases ha : a = '-'
    · simp [parse_en_passant, ha]
    · simp [parse_en_passant, ha]
  | [a, b] => simp [parse_en_passant]
  | a :: b :: c :: t => simp [parse_en_passant]

/-- Helper: the piece-placement match fails on characters outside the
twelve recognized piece letters. -/
lemma applyPieceChar_eq_none (e : ChessEngine) (bit : Nat) (c : Char)
    (h : isPieceChar c = false) : applyPieceChar e bit c = none := by
  have hs : ¬c = 'P' ∧ ¬c = 'N' ∧ ¬c = 'B' ∧ ¬c = 'R' ∧ ¬c = 'Q' ∧ ¬c = 'K' ∧
      ¬c = 'p' ∧ ¬c = 'n' ∧ ¬c = 'b' ∧ ¬c = 'r' ∧ ¬c = 'q' ∧ ¬c = 'k' := by
    simpa [isPieceChar] using h
  obtain ⟨h1, h2, h3, h4, h5, h6, h7, h8, h9, h10, h11, h12⟩ := hs
  unfold applyPieceChar
  rw [if_neg h1, if_neg h2, if_neg h3, if_neg h4, if_neg h5, if_neg h6,
    if_neg h7, if_neg h8, if_neg h9, if_neg h10, if_neg h11, if_neg h12]

/-- Helper: the piece-placement match succeeds on recognized piece
letters. -/
lemma applyPieceChar_ne_none (e : ChessEngine) (bit : Nat) (c : Char)
    (h : isPieceChar c = true) : applyPieceChar e bit c ≠ none := by
  unfold applyPieceChar
  by_cases h1 : c = 'P'
  · rw [if_pos h1]; exact Option.some_ne_none _
  rw [if_neg h1]
  by_cases h2 : c = 'N'
  · rw [if_pos h2]; exact Option.some_ne_none _
  rw [if_neg h2]
  by_cases h3 : c = 'B'
  · rw [if_pos h3]; exact Option.some_ne_none _
  rw [if_neg h3]
  by_cases h4 : c = 'R'
  · rw [if_pos h4]; exact Option.some_ne_none _
  rw [if_neg h4]
  by_cases h5 : c = 'Q'
  · rw [if_pos h5]; exact Option.some_ne_none _
  rw [if_neg h5]
  by_cases h6 : c = 'K'
  · rw [if_pos h6]; exact Option.some_ne_none _
  rw [if_neg h6]
  by_cases h7 : c = 'p'
  · rw [if_pos h7]; exact Option.some_ne_none _
  rw [if_neg h7]
  by_cases h8 : c = 'n'
  · rw [if_pos h8]; exact Option.some_ne_none _
  rw [if_neg h8]
  by_cases h9 : c = 'b'
  · rw [if_pos h9]; exact Option.some_ne_none _
  rw [if_neg h9]
  by_cases h10 : c = 'r'
  · rw [if_pos h10]; exact Option.some_ne_none _
  rw [if_neg h10]
  by_cases h11 : c = 'q'
  · rw [if_pos h11]; exact Option.some_ne_none _
  rw [if_neg h11]
  by_cases h12 : c = 'k'
  · rw [if_pos h12]; exact Option.some_ne_none _
  exfalso
  simp [isPieceChar, h1, h2, h3, h4, h5, h6, h7, h8, h9, h10, h11, h12] at h

/-- Helper: the rank loop errors exactly when some character is neither
an ASCII digit nor a recognized piece letter, independently of the
engine state, rank index and file index. -/
lemma parseRankAux_snd :
    ∀ (cs : List Char) (rank_idx : Nat) (e : ChessEngine) (file_idx : Nat),
    (parseRankAux rank_idx e file_idx cs).2 =
      if cs.all (fun c => c.isDigit || isPieceChar c) then none
      else some FenError.boardError := by
  intro cs
  induction cs with
  | nil => intro rank_idx e file_idx; simp [parseRankAux]
  | cons c rest ih =>
    intro rank_idx e file_idx
    by_cases hd : c.isDigit
    · simp [parseRankAux, hd, ih]
    · by_cases hp : isPieceChar c
      · rcases ho : applyPieceChar e (2 ^ (((7 - rank_idx) * 8 + file_idx) % 64)) c with _ | e2
        · exact absurd ho (applyPieceChar_ne_none e _ c hp)
        · simp [parseRankAux, hd, hp, ho, ih]
      · have hfalse : isPieceChar c = false := by simpa using hp
        have ho : applyPieceChar e (2 ^ (((7 - rank_idx) * 8 + file_idx) % 64)) c = none :=
          applyPieceChar_eq_none e _ c hfalse
        simp [parseRankAux, hd, hfalse, ho]

/-- Helper: the eight-rank loop errors exactly when some rank contains a
character that is neither a digit nor a piece letter. -/
lemma parseRanksAux_snd :
    ∀ (rs : List (List Char)) (e : ChessEngine) (rank_idx : Nat),
    (parseRanksAux e rank_idx rs).2 =
      if rs.all (fun r => r.all (fun c => c.isDigit || isPieceChar c)) then none
      else some FenError.boardError := by
  intro rs
  induction rs with
  | nil => intro e k; simp [parseRanksAux]
  | cons r rest ih =>
    intro e k
    rcases hr : parseRankAux k e 0 r with ⟨e2, res⟩
    have hsnd := parseRankAux_snd r k e 0
    rw [hr] at hsnd
    by_cases hall : r.all (fun c => c.isDigit || isPieceChar c)
    · rw [if_pos hall] at hsnd
      subst hsnd
      simp [parseRanksAux, hr, hall, ih]
    · rw [if_neg hall] at hsnd
      subst hsnd
      simp [parseRanksAux, hr, hall]

/-- C5 counterexample: a FEN whose last rank is "7" — summing to 7 files,
not 8 — decodes successfully instead of failing with the board error:
rank file-sums are never checked. -/
theorem c5_short_rank_decodes_successfully :
    (load_fen ChessEngine.new "8/8/8/8/8/8/8/7 w - - 0 1".toList).2 = none ∧
    (splitChars (fun c => c = '/') "8/8/8/8/8/8/8/7".toList).getD 7 [] = ['7'] := by
  decide

/-- C5 amended: board parsing fails (with the board error) exactly when
the board field does not split into exactly 8 "/"-separated ranks or some
rank contains a character that is neither an ASCII digit nor a recognized
piece letter; the per-rank file sums are not validated. -/
theorem c5_board_error_iff_bad_shape_or_char :
    ∀ (e : ChessEngine) (board : List Char),
    (parse_board_position e board).2 =
      if (splitChars (fun c => c = '/') board).length = 8 ∧
          (splitChars (fun c => c = '/') board).all
            (fun r => r.all (fun c => c.isDigit || isPieceChar c)) = true
      then none else some FenError.boardError := by
  intro e board
  by_cases h8 : (splitChars (fun c => c = '/') board).length = 8
  · by_cases hall :
      (splitChars (fun c => c = '/') board).all
        (fun r => r.all (fun c => c.isDigit || isPieceChar c)) = true
    · simp [parse_board_position, h8, hall, parseRanksAux_snd]
    · simp [parse_board_position, h8, hall, parseRanksAux_snd]
  · simp [parse_board_position, h8]
